import Mathlib

/-!
# Verification of `booru_downloader.py`

A shallow embedding of the post-retrieval and filtering pipeline of
`src/booru_downloader.py`, together with theorems settling the claims about
its specification.

Modelling conventions:
* JSON / Python values, as far as the program inspects them, are the type
  `JVal` (None, int, str, list, dict).  Python floats that the program
  computes with (`parse_ratio` results, the aspect-ratio test) are modelled
  as exact rationals (`Rat`); the decimal literal `0.02` is the rational
  `2/100`.
* Python exceptions are explicit: functions that can raise return `Option`
  or `Except PyExc`, and the run loop's outcome carries the state at the
  moment an uncaught exception fires.
* The network and filesystem are an oracle (`Env`): the result of fetching
  page `n`, whether an image GET succeeds, and which paths exist before the
  run starts.
-/

namespace Booru

/-- A Python/JSON value, as far as the downloader inspects it. -/
inductive JVal where
  | none : JVal
  | int : Int → JVal
  | str : String → JVal
  | list : List JVal → JVal
  | dict : List (String × JVal) → JVal

/-- Python truthiness for the values above: `None`, `0`, `""`, `[]`, `{}`
are falsy, everything else truthy. -/
def truthy : JVal → Bool
  | .none => false
  | .int n => n != 0
  | .str s => s != ""
  | .list l => !l.isEmpty
  | .dict d => !d.isEmpty

/-- A Python dict with string keys, in insertion order. -/
abbrev Dict := List (String × JVal)

/-- `d.get(k)`: the value at key `k`, or `None` when the key is absent. -/
def dget (d : Dict) (k : String) : JVal :=
  match d.find? (fun kv => kv.1 == k) with
  | some kv => kv.2
  | Option.none => .none

/-- `k in d` for a Python dict. -/
def hasKey (d : Dict) (k : String) : Bool :=
  d.any (fun kv => kv.1 == k)

/-- Python `a or b`: `a` when `a` is truthy, else `b`. -/
def pyOr (a b : JVal) : JVal :=
  if truthy a then a else b

/-- Digits of a decimal numeral read as a natural number (empty list ↦ 0). -/
def natOfDigits (cs : List Char) : Nat :=
  cs.foldl (fun n c => 10 * n + (c.toNat - 48)) 0

/-- A nonempty all-digit string read as a natural number; fails otherwise. -/
def parseDigits (cs : List Char) : Option Nat :=
  match cs with
  | [] => Option.none
  | _ => if cs.all Char.isDigit then some (natOfDigits cs) else Option.none

/-- Python `int(s)` on a plain decimal integer literal: optional sign, then
digits.  (Surrounding whitespace and underscores, which Python also accepts,
are outside the modelled fragment.) -/
def pyIntOfString (s : String) : Option Int :=
  match s.toList with
  | '-' :: rest => (parseDigits rest).map (fun n => -(n : Int))
  | '+' :: rest => (parseDigits rest).map (fun n => (n : Int))
  | cs => (parseDigits cs).map (fun n => (n : Int))

/-- Python `int(x)` on a `JVal`: ints pass through, strings are parsed,
everything else raises (`Option.none`). -/
def pyInt : JVal → Option Int
  | .int n => some n
  | .str s => pyIntOfString s
  | _ => Option.none

/-- Unsigned part of Python `float(s)` on a plain decimal literal, as an
exact rational: digits with an optional decimal point, at least one digit.
(Exponents, `inf`/`nan`, underscores and surrounding whitespace, which
Python's `float` also accepts, are outside the modelled fragment.) -/
def pyFloatCore (cs : List Char) : Option Rat :=
  let ip := cs.takeWhile Char.isDigit
  match cs.dropWhile Char.isDigit with
  | [] => if ip.isEmpty then Option.none else some ((natOfDigits ip : Nat) : Rat)
  | d :: frac =>
      if d = '.' && frac.all Char.isDigit && !(ip.isEmpty && frac.isEmpty) then
        some ((natOfDigits ip : Nat) + (natOfDigits frac : Nat) / (10 : Rat) ^ frac.length)
      else Option.none

/-- Python `float(s)` (on the modelled fragment of the literal grammar),
with an optional leading sign. -/
def pyFloatL (cs : List Char) : Option Rat :=
  match cs with
  | [] => pyFloatCore []
  | hd :: rest =>
      if hd = '-' then (pyFloatCore rest).map (fun q => -q)
      else if hd = '+' then pyFloatCore rest
      else pyFloatCore (hd :: rest)

def pyFloat (s : String) : Option Rat := pyFloatL s.toList

/-- The two exception classes the ratio path can raise:
`float("x")` raises `ValueError`, `1.0/0.0` raises `ZeroDivisionError`. -/
inductive PyExc where
  | valueError
  | zeroDivisionError
deriving Repr, DecidableEq

/-- Python `s.split(sep)` for a one-character separator. -/
def splitOnChar (c : Char) : List Char → List (List Char)
  | [] => [[]]
  | x :: xs =>
    match splitOnChar c xs with
    | [] => [[]]
    | y :: ys => if x = c then [] :: y :: ys else (x :: y) :: ys

/-- `parse_ratio` from the source: accepts `"A:B"`, `"A/B"` or a plain
decimal `"D"`.  `a, b = r.split(sep)` raises `ValueError` unless there are
exactly two parts; `float` of a non-numeric part raises `ValueError`;
division by `0.0` raises `ZeroDivisionError`. -/
def parse_ratioL (cs : List Char) : Except PyExc Rat :=
  if cs.contains ':' then
    match splitOnChar ':' cs with
    | [a, b] =>
        match pyFloatL a, pyFloatL b with
        | some x, some y =>
            if y = 0 then .error .zeroDivisionError else .ok (x / y)
        | _, _ => .error .valueError
    | _ => .error .valueError
  else if cs.contains '/' then
    match splitOnChar '/' cs with
    | [a, b] =>
        match pyFloatL a, pyFloatL b with
        | some x, some y =>
            if y = 0 then .error .zeroDivisionError else .ok (x / y)
        | _, _ => .error .valueError
    | _ => .error .valueError
  else
    match pyFloatL cs with
    | some x => .ok x
    | Option.none => .error .valueError

def parse_ratio (r : String) : Except PyExc Rat := parse_ratioL r.toList

/-- `[parse_ratio(r) for r in args.ratio]`: left to right, first exception
aborts the comprehension. -/
def parseRatioList : List String → Except PyExc (List Rat)
  | [] => .ok []
  | r :: rs =>
    match parse_ratio r with
    | .ok q => (parseRatioList rs).map (fun qs => q :: qs)
    | .error e => .error e

/-- Outcome of main's ratio-validation step, before any network request. -/
inductive RatioStartup where
  | proceeds : List Rat → RatioStartup
  | reportedInvalidRatio : RatioStartup
  | crashed : PyExc → RatioStartup
deriving Repr, DecidableEq

/-- The ratio phase of `main`: the comprehension runs inside
`try: ... except ValueError:`, which prints the invalid-ratio report and
returns; any other exception propagates and aborts the process.  In all
three outcomes other than `proceeds`, `fetch_and_download` is never
reached, so no network activity happens. -/
def mainRatioStep (ratioArgs : List String) : RatioStartup :=
  match parseRatioList ratioArgs with
  | .ok qs => .proceeds qs
  | .error .valueError => .reportedInvalidRatio
  | .error e => .crashed e

/-! ## Field probing (`get_image_url_from_post`, `get_tags_from_post`,
`get_dimensions`, `get_score`) -/

/-- The probe loop of `get_image_url_from_post`: the first key that is
present with a truthy value wins. -/
def probeKeys (post : Dict) : List String → Option JVal
  | [] => Option.none
  | k :: ks =>
      if hasKey post k && truthy (dget post k) then some (dget post k)
      else probeKeys post ks

/-- `get_image_url_from_post` from the source (its `api_type` argument is
unused in the body). -/
def get_image_url_from_post (post : Dict) : Option JVal :=
  probeKeys post
    ["file_url", "image_url", "image", "large_file_url", "source",
     "preview_file_url"]

mutual

/-- `repr` of a value, as Python would print it inside a container. -/
def pyRepr : JVal → String
  | .none => "None"
  | .int n => toString n
  | .str s => "\x27" ++ s ++ "\x27"
  | .list l => "[" ++ pyReprElems l ++ "]"
  | .dict d => "\x7b" ++ pyReprItems d ++ "\x7d"

/-- Comma-separated `repr`s of list elements. -/
def pyReprElems : List JVal → String
  | [] => ""
  | [v] => pyRepr v
  | v :: vs => pyRepr v ++ ", " ++ pyReprElems vs

/-- Comma-separated `repr`s of dict items. -/
def pyReprItems : List (String × JVal) → String
  | [] => ""
  | [(k, v)] => "\x27" ++ k ++ "\x27: " ++ pyRepr v
  | (k, v) :: kvs => "\x27" ++ k ++ "\x27: " ++ pyRepr v ++ ", " ++ pyReprItems kvs

end

/-- Python `str(x)`. -/
def pyStr : JVal → String
  | .str s => s
  | v => pyRepr v

/-- `" ".join(l)`: raises `TypeError` (modelled as `Option.none`) unless
every element is a string. -/
def pyJoinSpace (l : List JVal) : Option String :=
  if l.all (fun v => match v with | .str _ => true | _ => false) then
    some (String.intercalate " "
      (l.map (fun v => match v with | .str s => s | _ => "")))
  else Option.none

/-- `get_tags_from_post` from the source.  `Option.none` is the uncaught
`TypeError` that `" ".join` raises on a list with non-string elements. -/
def get_tags_from_post (post : Dict) : Option JVal :=
  if hasKey post "tag_string" && !(match dget post "tag_string" with
                                   | .none => true
                                   | _ => false) then
    some (dget post "tag_string")
  else if hasKey post "tags" then
    match dget post "tags" with
    | .list l => (pyJoinSpace l).map JVal.str
    | v => some (.str (pyStr v))
  else some (.str "")

/-- `get_dimensions` from the source: probe the synonym keys with `or`,
then `int()` both; if either coercion raises, both dimensions are `None`. -/
def get_dimensions (post : Dict) : Option Int × Option Int :=
  let w := pyOr (pyOr (dget post "image_width") (dget post "width"))
                (dget post "preview_width")
  let h := pyOr (pyOr (dget post "image_height") (dget post "height"))
                (dget post "preview_height")
  match pyInt w, pyInt h with
  | some wv, some hv => (some wv, some hv)
  | _, _ => (Option.none, Option.none)

/-- The probe loop of `get_score`: first key present whose value coerces to
int wins; a present key whose value fails to coerce falls through. -/
def scoreKeys (post : Dict) : List String → Option Int
  | [] => Option.none
  | k :: ks =>
      if hasKey post k then
        match pyInt (dget post k) with
        | some v => some v
        | Option.none => scoreKeys post ks
      else scoreKeys post ks

/-- `get_score` from the source. -/
def get_score (post : Dict) : Option Int :=
  scoreKeys post ["score", "total_score", "rating_score", "fav_count", "up_score"]

/-! ## Extension derivation -/

/-- Index of the last occurrence of `c` in `cs`, if any. -/
def rfindIdx (c : Char) (cs : List Char) : Option Nat :=
  match cs with
  | [] => Option.none
  | x :: xs =>
    match rfindIdx c xs with
    | some i => some (i + 1)
    | Option.none => if x = c then some 0 else Option.none

/-- The extension part of `os.path.splitext` (posix): the suffix from the
last dot, provided that dot comes after the last slash and the basename
does not consist solely of dots up to it. -/
def splitextExt (s : String) : String :=
  let cs := s.toList
  let start := match rfindIdx '/' cs with
               | some i => i + 1
               | Option.none => 0
  match rfindIdx '.' cs with
  | Option.none => ""
  | some d =>
      if start ≤ d then
        if ((cs.drop start).take (d - start)).any (fun c => c ≠ '.') then
          String.mk (cs.drop d)
        else ""
      else ""

/-- Python `s.lower()` (ASCII, which is all that URLs carry here). -/
def pyLower (s : String) : String := String.mk (s.toList.map Char.toLower)

/-- `os.path.splitext(image_url.split("?")[0])[1].lower()` from the source
(`split("?")[0]` is the part before the first `?`, or the whole string). -/
def extOfUrl (u : String) : String :=
  pyLower (splitextExt (String.mk ((splitOnChar '?' u.toList).headD u.toList)))

/-- The fixed video/animation extension set from the source. -/
def VIDEO_EXTENSIONS : List String :=
  [".mp4", ".webm", ".avi", ".mov", ".wmv", ".flv", ".mkv", ".gifv", ".gif"]

/-! ## The fetch-and-persist loop (`fetch_and_download`)

The network and filesystem are an oracle `Env`; the loop's observable
effects (files written, image GETs attempted, warnings printed, the
`downloaded` counter) are threaded through a state `St`.  Wall-clock time,
read by the `str(int(time.time()*1000))` identifier fallback, is a counter
that advances once per processed post. -/

/-- Content of a file the loop writes: the fully streamed body of an image
URL, the truncated prefix left behind when the streamed body read raises
mid-transfer (the file was already opened and partially written), or tag
text. -/
inductive FileData where
  | image : String → FileData
  | truncatedImage : String → FileData
  | text : String → FileData
deriving Repr, DecidableEq

/-- Warning lines the loop can print. -/
inductive Warning where
  | downloadFailed : String → Warning
  | pageFetchFailed : Int → Warning
deriving Repr, DecidableEq

/-- Configuration of one `fetch_and_download` call.  `ratios = []` covers
both `None` and an empty list (both falsy, used identically); `min_w`,
`min_h` are `None` or ints. -/
structure Config where
  ratios : List Rat
  min_w : Option Int
  min_h : Option Int
  min_score : Option Int
  out_dir : String
  max_images : Int
  per_page : Int

/-- Mutable run state plus the trace of observable effects. -/
structure St where
  downloaded : Int
  written : List (String × FileData)
  fetched : List String
  warnings : List Warning
  clock : Nat
deriving Repr, DecidableEq

/-- Time passes: processing one post advances the clock. -/
def tick (st : St) : St := { st with clock := st.clock + 1 }

/-- Result of one page request (`session.get` + `raise_for_status` +
`r.json()`): either some exception (caught by the loop) or decoded JSON. -/
inductive PageResult where
  | fail : PageResult
  | ok : JVal → PageResult

/-- Result of the per-image transfer.  `download_file`'s `try` covers only
`session.get` and `raise_for_status`, so an exception raised there
(`requestError`) is caught and turned into `(False, msg)`; the streamed
body read (`r.iter_content`, inside `with open(...)`) happens after the
`try`, so an exception raised mid-transfer (`streamError`) propagates
uncaught out of `download_file` — and `fetch_and_download` has no handler
around the call either. -/
inductive DlResult where
  | requestError : DlResult
  | ok : DlResult
  | streamError : DlResult
deriving Repr, DecidableEq

/-- The outside world: what fetching page `n` yields, which paths exist
before the run, and how the GET + streamed body read for an image URL
turns out. -/
structure Env where
  pages : Int → PageResult
  exists0 : String → Bool
  getImage : String → DlResult

/-- `os.path.exists` during the run: a path exists if it existed at start
or the run has already written it. -/
def pathExists (env : Env) (st : St) (p : String) : Bool :=
  env.exists0 p || st.written.any (fun w => w.1 == p)

/-- Result of processing one post (or one page's posts): normal
continuation, or an uncaught exception with the state at that moment. -/
inductive StepRes where
  | ok : St → StepRes
  | crash : St → StepRes
deriving Repr, DecidableEq

/-- The tolerance test from the source:
`abs(actual_r - target_ratio) <= target_ratio * 0.02`. -/
def ratioMatches (actual target : Rat) : Bool :=
  |actual - target| ≤ target * (2 / 100)

/-- Truthiness of an optional int (`None` and `0` are falsy). -/
def truthyI : Option Int → Bool
  | Option.none => false
  | some n => n != 0

/-- The ratio-filter block (source lines 228–237): entered only when
`ratios and w and h` is truthy; inside, `actual_r` is `None` when
`h == 0` (unreachable there, since `h` is truthy) and the post is skipped
unless some target matches. -/
def ratioRejects (ratios : List Rat) (w h : Option Int) : Bool :=
  if !ratios.isEmpty && truthyI w && truthyI h then
    match w, h with
    | some wv, some hv =>
        if hv ≠ 0 then
          !ratios.any (fun t => ratioMatches ((wv : Rat) / (hv : Rat)) t)
        else true
    | _, _ => true
  else false

/-- `if min_d and (not d or d < min_d): continue` — the minimum-width and
minimum-height filters (source lines 239–242). -/
def minDimRejects (minD d : Option Int) : Bool :=
  truthyI minD &&
    (!truthyI d ||
      (match d, minD with
       | some dv, some m => dv < m
       | _, _ => false))

/-- `if min_score is not None: ...` (source lines 243–246). -/
def scoreRejects (minScore : Option Int) (post : Dict) : Bool :=
  match minScore with
  | Option.none => false
  | some m =>
    match get_score post with
    | Option.none => true
    | some s => s < m

/-- `post.get("id") or post.get("post_id") or post.get("file_id") or
str(int(time.time()*1000))` — the identifier used for file naming. -/
def postIdOf (post : Dict) (clock : Nat) : JVal :=
  pyOr (pyOr (pyOr (dget post "id") (dget post "post_id"))
             (dget post "file_id"))
       (.str (toString clock))

/-- `if not ext: ext = ".jpg"` — the extension actually used in the name. -/
def extOrJpg (ext0 : String) : String := if ext0 = "" then ".jpg" else ext0

/-- `os.path.join(images_dir, f"{post_id}{ext}")`. -/
def imgPathOf (cfg : Config) (post : Dict) (clock : Nat) (ext0 : String) : String :=
  cfg.out_dir ++ "/images/" ++ pyStr (postIdOf post clock) ++ extOrJpg ext0

/-- `os.path.join(txt_dir, f"{post_id}.txt")`. -/
def txtPathOf (cfg : Config) (post : Dict) (clock : Nat) : String :=
  cfg.out_dir ++ "/tags/" ++ pyStr (postIdOf post clock) ++ ".txt"

/-- Source lines 249–275: name the destination files; skip (but count)
when the image path exists; otherwise call `download_file`.  There, an
exception from `session.get`/`raise_for_status` is caught — `(False, msg)`
comes back, `fetch_and_download` logs a warning and continues without
counting.  On a successful request the body is streamed into the opened
destination file; if `iter_content` raises mid-transfer, the exception is
outside `download_file`'s `try` and has no handler at the call site, so
the run crashes with the truncated image file left behind.  On full
success the tag text is written and the count incremented; `f.write(tags)`
raises `TypeError` when the tag value is not a string. -/
def downloadStage (cfg : Config) (env : Env) (st : St) (post : Dict)
    (u ext0 : String) (tags : JVal) : StepRes :=
  let imgPath := imgPathOf cfg post st.clock ext0
  let txtPath := txtPathOf cfg post st.clock
  if pathExists env st imgPath then
    .ok { tick st with downloaded := st.downloaded + 1 }
  else
    let st1 := { st with fetched := st.fetched ++ [u] }
    match env.getImage u with
    | .requestError =>
        .ok { tick st1 with warnings := st1.warnings ++ [.downloadFailed u] }
    | .ok =>
        let st2 := { st1 with written := st1.written ++ [(imgPath, FileData.image u)] }
        match tags with
        | .str ts =>
            .ok { tick st2 with
                  written := st2.written ++ [(txtPath, FileData.text ts)],
                  downloaded := st2.downloaded + 1 }
        | _ => .crash st2
    | .streamError =>
        .crash { st1 with
                 written := st1.written ++ [(imgPath, FileData.truncatedImage u)] }

/-- The body of `for post in posts` (source lines 201–275), minus the
budget check that the enclosing loop performs.  Each early `continue`
leaves the state unchanged apart from the clock; a non-dict record raises
in field probing. -/
def processPost (cfg : Config) (env : Env) (st : St) (postJ : JVal) : StepRes :=
  match postJ with
  | .dict post =>
    match get_image_url_from_post post with
    | Option.none => .ok (tick st)
    | some (.str u) =>
      let ext0 := extOfUrl u
      if VIDEO_EXTENSIONS.contains ext0 then .ok (tick st)
      else
        match get_tags_from_post post with
        | Option.none => .crash st
        | some tags =>
          let wh := get_dimensions post
          if ratioRejects cfg.ratios wh.1 wh.2 then .ok (tick st)
          else if minDimRejects cfg.min_w wh.1 then .ok (tick st)
          else if minDimRejects cfg.min_h wh.2 then .ok (tick st)
          else if scoreRejects cfg.min_score post then .ok (tick st)
          else downloadStage cfg env st post u ext0 tags
    | some _ => .ok (tick st)
  | _ => .crash st

/-- The `for post in posts` loop: the budget is re-checked before each
post (`if downloaded >= max_images: break`). -/
def processPosts (cfg : Config) (env : Env) : List JVal → St → StepRes
  | [], st => .ok st
  | p :: ps, st =>
    if st.downloaded ≥ cfg.max_images then .ok st
    else
      match processPost cfg env st p with
      | .ok st' => processPosts cfg env ps st'
      | .crash st' => .crash st'

/-- Source lines 194–196: normalize the decoded JSON to the list the post
loop iterates.  A bare list is used as is; a dict is probed for
`"post"`/`"posts"` (the chain's final operand is `[]`); a single dict under
that key is wrapped in a one-element list; a string iterates its
characters; anything else raises (`Option.none`). -/
def extract_posts (data : JVal) : Option (List JVal) :=
  match data with
  | .list l => some l
  | .dict d =>
    match pyOr (dget d "post")
               (pyOr (dget d "posts") (pyOr (dget d "posts") (.list []))) with
    | .list l => some l
    | .dict p => some [.dict p]
    | .str s => some (s.toList.map (fun c => .str (String.mk [c])))
    | _ => Option.none
  | _ => Option.none

/-- Outcome of the page loop: normal exit (the `[DONE]` summary), an
uncaught exception, or fuel exhaustion (the model's bound on how many page
iterations are examined). -/
inductive RunOutcome where
  | finished : St → RunOutcome
  | crashed : St → RunOutcome
  | outOfFuel : St → RunOutcome
deriving Repr, DecidableEq

/-- The state an outcome carries. -/
def runState : RunOutcome → St
  | .finished st => st
  | .crashed st => st
  | .outOfFuel st => st

/-- The `while downloaded < max_images` page loop (source lines 172–278).
`page` is the value of the page counter before the iteration; each
iteration increments it, fetches that page (URL building, rate limiting and
the dialect's cursor translation are absorbed into `env.pages`), and:
stops on a fetch/decode error (warning, count preserved), stops on an empty
post list, runs the post loop, then stops after a short page
(`len(posts) < per_page`). -/
def runLoop (cfg : Config) (env : Env) : Nat → Int → St → RunOutcome
  | 0, _, st => .outOfFuel st
  | fuel + 1, page, st =>
    if st.downloaded < cfg.max_images then
      let page' := page + 1
      match env.pages page' with
      | .fail =>
          .finished { st with warnings := st.warnings ++ [.pageFetchFailed page'] }
      | .ok data =>
        match extract_posts data with
        | Option.none => .crashed st
        | some posts =>
          if posts.isEmpty then .finished st
          else
            match processPosts cfg env posts st with
            | .crash st' => .crashed st'
            | .ok st' =>
                if (posts.length : Int) < cfg.per_page then .finished st'
                else runLoop cfg env fuel page' st'
    else .finished st

/-- Initial run state: `downloaded = 0`, `page = 0`, nothing written. -/
def initSt (clock : Nat) : St :=
  { downloaded := 0, written := [], fetched := [], warnings := [], clock := clock }

/-- A whole `fetch_and_download` run, examined up to `fuel` pages. -/
def run (cfg : Config) (env : Env) (fuel : Nat) (clock : Nat) : RunOutcome :=
  runLoop cfg env fuel 0 (initSt clock)

/-- The state carried by a step result, crash or not. -/
def stResSt : StepRes → St
  | .ok st => st
  | .crash st => st

/-! ## Concrete instances used by witnesses and counterexamples -/

/-- A `.gif` post whose ratio (1920×1080 = 16:9), score and size all pass
the other filters. -/
def postGif : Dict :=
  [("id", .int 3), ("file_url", .str "https://x/a.gif"),
   ("tag_string", .str "t"), ("width", .int 1920), ("height", .int 1080),
   ("score", .int 99)]

/-- A post with a usable image URL whose probed height is `0`
(`preview_height = 0` after `image_height`/`height` are absent). -/
def postH0 : Dict :=
  [("id", .int 9), ("file_url", .str "https://x/a.jpg"),
   ("width", .int 100), ("preview_height", .int 0)]

/-- A well-formed post record with identifier `i`. -/
def mkPostD (i : Int) : Dict :=
  [("id", .int i), ("file_url", .str "https://x/a.jpg"),
   ("tag_string", .str "tag")]

/-- The same record as a JSON value. -/
def mkPost (i : Int) : JVal := .dict (mkPostD i)

/-- A record that carries the upstream identifier `0`. -/
def postIdZero : Dict :=
  [("id", .int 0), ("file_url", .str "https://x/a.jpg")]

/-- Configuration with one target ratio and every demanding filter on. -/
def cfgStrict : Config :=
  { ratios := [16 / 9], min_w := some 100, min_h := some 100,
    min_score := some 1, out_dir := "out", max_images := 10, per_page := 100 }

/-- Configuration with one target ratio and no other client-side filter. -/
def cfgPlain : Config :=
  { ratios := [16 / 9], min_w := Option.none, min_h := Option.none,
    min_score := Option.none, out_dir := "out", max_images := 10, per_page := 100 }

/-- Configuration whose only target ratio is 2. -/
def cfgR2 : Config :=
  { ratios := [2], min_w := Option.none, min_h := Option.none,
    min_score := Option.none, out_dir := "out", max_images := 10, per_page := 100 }

/-- A 1×1 post: both dimensions present and nonzero, ratio 1. -/
def postWH1 : Dict :=
  [("id", .int 4), ("file_url", .str "https://x/a.jpg"),
   ("width", .int 1), ("height", .int 1)]

/-- Environment where every image GET succeeds, nothing exists on disk,
and page fetches fail (irrelevant for per-post statements). -/
def envYes : Env :=
  { pages := fun _ => .fail, exists0 := fun _ => false,
    getImage := fun _ => .ok }

/-- Environment whose first page holds three well-formed posts. -/
def envThree : Env :=
  { pages := fun n => if n == 1 then .ok (.list [mkPost 1, mkPost 2, mkPost 3])
                      else .fail,
    exists0 := fun _ => false, getImage := fun _ => .ok }

/-- Configuration with a download budget of 2. -/
def cfgTwo : Config :=
  { ratios := [16 / 9], min_w := Option.none, min_h := Option.none,
    min_score := Option.none, out_dir := "out", max_images := 2, per_page := 100 }

/-- Environment whose first page holds three posts and where every image
path already exists on disk. -/
def envAllExist : Env :=
  { pages := fun n => if n == 1 then .ok (.list [mkPost 1, mkPost 2, mkPost 3])
                      else .fail,
    exists0 := fun _ => true, getImage := fun _ => .ok }

/-- Environment whose first page is the empty JSON list. -/
def envEmptyPage : Env :=
  { pages := fun n => if n == 1 then .ok (.list []) else .fail,
    exists0 := fun _ => false, getImage := fun _ => .ok }

/-- Environment where the first page holds one post whose image file is
already on disk, and any image GET would succeed. -/
def envSatisfied : Env :=
  { pages := fun n => if n == 1 then .ok (.list [mkPost 1]) else .ok (.list []),
    exists0 := fun p => p == "out/images/1.jpg", getImage := fun _ => .ok }

/-- Environment where the first page holds one well-formed post and the
image request itself fails (an exception from `session.get` or
`raise_for_status`, the caught kind). -/
def envFailDl : Env :=
  { pages := fun n => if n == 1 then .ok (.list [mkPost 1]) else .fail,
    exists0 := fun _ => false, getImage := fun _ => .requestError }

/-- Environment where the first page holds one well-formed post and the
streamed body read of its image raises mid-transfer (the uncaught kind). -/
def envStreamErr : Env :=
  { pages := fun n => if n == 1 then .ok (.list [mkPost 1]) else .fail,
    exists0 := fun _ => false, getImage := fun _ => .streamError }

/-! ## Helper lemmas -/

/-- Unfolding lemma for `splitOnChar` on a cons cell. -/
theorem splitOnChar_cons (c x : Char) (xs : List Char) :
    splitOnChar c (x :: xs) =
      match splitOnChar c xs with
      | [] => [[]]
      | y :: ys => if x = c then [] :: y :: ys else (x :: y) :: ys := rfl

/-- Characters accepted by the modelled `float()` literal grammar. -/
theorem pyFloatCore_chars {cs : List Char} {x : Rat}
    (h : pyFloatCore cs = some x) : ∀ c ∈ cs, c.isDigit ∨ c = '.' := by
  intro c hc
  rw [← List.takeWhile_append_dropWhile (p := Char.isDigit) (l := cs)] at hc
  rcases List.mem_append.mp hc with hip | hrest
  · exact Or.inl (List.mem_takeWhile_imp hip)
  · cases hdrop : cs.dropWhile Char.isDigit with
    | nil => rw [hdrop] at hrest; cases hrest
    | cons d frac =>
        rw [hdrop] at hrest
        simp only [pyFloatCore, hdrop] at h
        split at h
        · rename_i hcond
          simp only [Bool.and_eq_true, decide_eq_true_eq,
            List.all_eq_true] at hcond
          rcases List.mem_cons.mp hrest with h1 | h1
          · exact Or.inr (h1.trans hcond.1.1)
          · exact Or.inl (hcond.1.2 c h1)
        · cases h

/-- The separators `:` and `/` cannot occur in a numeric part. -/
theorem pyFloatL_no_sep {cs : List Char} {x : Rat}
    (h : pyFloatL cs = some x) : ':' ∉ cs ∧ '/' ∉ cs := by
  have hchars : ∀ c ∈ cs, c.isDigit ∨ c = '.' ∨ c = '-' ∨ c = '+' := by
    intro c hc
    cases cs with
    | nil => cases hc
    | cons hd tl =>
        simp only [pyFloatL] at h
        rcases List.mem_cons.mp hc with hceq | hctl
        · subst hceq
          by_cases hm : c = '-'
          · exact Or.inr (Or.inr (Or.inl hm))
          · by_cases hp : c = '+'
            · exact Or.inr (Or.inr (Or.inr hp))
            · rw [if_neg hm, if_neg hp] at h
              rcases pyFloatCore_chars h c (List.mem_cons_self c tl)
                with h1 | h1
              · exact Or.inl h1
              · exact Or.inr (Or.inl h1)
        · by_cases hm : hd = '-'
          · rw [if_pos hm] at h
            cases hcore : pyFloatCore tl with
            | none => rw [hcore] at h; cases h
            | some y =>
                rcases pyFloatCore_chars hcore c hctl with h1 | h1
                · exact Or.inl h1
                · exact Or.inr (Or.inl h1)
          · by_cases hp : hd = '+'
            · rw [if_neg hm, if_pos hp] at h
              rcases pyFloatCore_chars h c hctl with h1 | h1
              · exact Or.inl h1
              · exact Or.inr (Or.inl h1)
            · rw [if_neg hm, if_neg hp] at h
              rcases pyFloatCore_chars h c (List.mem_cons_of_mem hd hctl)
                with h1 | h1
              · exact Or.inl h1
              · exact Or.inr (Or.inl h1)
  constructor
  · intro hmem
    rcases hchars ':' hmem with h1 | h1 | h1 | h1 <;> simp at h1
  · intro hmem
    rcases hchars '/' hmem with h1 | h1 | h1 | h1 <;> simp at h1

/-- `splitOnChar` never returns the empty list of parts. -/
theorem splitOnChar_ne_nil (c : Char) (cs : List Char) :
    splitOnChar c cs ≠ [] := by
  cases cs with
  | nil => simp [splitOnChar]
  | cons x xs =>
      rw [splitOnChar_cons]
      cases splitOnChar c xs with
      | nil => simp
      | cons y ys => by_cases hx : x = c <;> simp [hx]

/-- Splitting on a character that does not occur yields one part. -/
theorem splitOnChar_not_mem {c : Char} {cs : List Char} (h : c ∉ cs) :
    splitOnChar c cs = [cs] := by
  induction cs with
  | nil => rfl
  | cons x xs ih =>
      have hx : x ≠ c := fun hxc => h (hxc ▸ List.mem_cons_self x xs)
      have hxs : c ∉ xs := fun hmem => h (List.mem_cons_of_mem x hmem)
      rw [splitOnChar_cons, ih hxs]
      simp [hx]

/-- Splitting at the first separator occurrence. -/
theorem splitOnChar_append {c : Char} {a : List Char} (b : List Char)
    (h : c ∉ a) : splitOnChar c (a ++ c :: b) = a :: splitOnChar c b := by
  induction a with
  | nil =>
      rw [List.nil_append, splitOnChar_cons]
      cases hsp : splitOnChar c b with
      | nil => exact absurd hsp (splitOnChar_ne_nil c b)
      | cons y ys => simp
  | cons x xs ih =>
      have hx : x ≠ c := fun hxc => h (hxc ▸ List.mem_cons_self x xs)
      have hxs : c ∉ xs := fun hmem => h (List.mem_cons_of_mem x hmem)
      rw [List.cons_append, splitOnChar_cons, ih hxs]
      simp [hx]

/-- Splitting `A ++ sep ++ B` with the separator in neither part gives
exactly the two parts. -/
theorem splitOnChar_pair {c : Char} {a b : List Char}
    (ha : c ∉ a) (hb : c ∉ b) : splitOnChar c (a ++ c :: b) = [a, b] := by
  rw [splitOnChar_append b ha, splitOnChar_not_mem hb]

/-! ## Theorems -/

/-- Claim C6: a post whose derived extension is in the fixed
video/animation set is rejected by the filter chain regardless of every
other attribute, configuration and state, and this happens before the
ratio, dimension and score filters run: the step leaves the run state
unchanged (nothing counted, fetched or written) apart from the clock. -/
theorem c6_video_extension_rejected_first
    (cfg : Config) (env : Env) (st : St) (post : Dict) (u : String)
    (hurl : get_image_url_from_post post = some (.str u))
    (hext : extOfUrl u ∈ VIDEO_EXTENSIONS) :
    processPost cfg env st (.dict post) = .ok (tick st) := by
  simp [processPost, hurl, hext]

/-- Witness for C6: a `.gif` post whose ratio, score and size all satisfy
the configured filters is nevertheless rejected. -/
theorem c6_witness :
    processPost cfgStrict envYes (initSt 0) (.dict postGif) =
      .ok (tick (initSt 0)) :=
  c6_video_extension_rejected_first cfgStrict envYes (initSt 0) postGif
    "https://x/a.gif" rfl (by decide)

/-- Claim C10: the ratio-filter tolerance is inclusive at exactly 2% — for
every positive target ratio, an actual ratio of exactly `target * 1.02`
matches, while `target * 1.021` does not. -/
theorem c10_tolerance_boundary (t : Rat) (ht : 0 < t) :
    ratioMatches (t * (102 / 100)) t = true ∧
    ratioMatches (t * (1021 / 1000)) t = false := by
  constructor
  · simp only [ratioMatches, decide_eq_true_eq]
    have h : t * (102 / 100) - t = t * (2 / 100) := by ring
    rw [h, abs_of_nonneg (by positivity)]
  · simp only [ratioMatches, decide_eq_false_iff_not, not_le]
    have h : t * (1021 / 1000) - t = t * (21 / 1000) := by ring
    rw [h, abs_of_nonneg (by positivity)]
    nlinarith

/-- Witness for C10 at the target ratio 16/9. -/
theorem c10_witness :
    ratioMatches ((16 / 9 : Rat) * (102 / 100)) (16 / 9) = true ∧
    ratioMatches ((16 / 9 : Rat) * (1021 / 1000)) (16 / 9) = false :=
  c10_tolerance_boundary (16 / 9) (by norm_num)

/-- Counterexample for C8: a response body that is a bare single object
representing exactly one post (no `"post"`/`"posts"` key) normalizes to
the empty sequence, not to a one-element sequence. -/
theorem c8_counterexample :
    extract_posts (.dict [("id", .int 5), ("file_url", .str "https://x/a.jpg")])
      = some [] ∧
    extract_posts (.dict [("id", .int 5), ("file_url", .str "https://x/a.jpg")])
      ≠ some [.dict [("id", .int 5), ("file_url", .str "https://x/a.jpg")]] := by
  refine ⟨rfl, ?_⟩
  intro h
  simp only [extract_posts] at h
  exact absurd (Option.some.inj h) (by simp)

/-- Claim C8 (amended): a bare list yields its elements; an object whose
`"post"` key holds a nonempty list yields that list, likewise `"posts"`
when `"post"` is falsy; a single post object appearing as the value of the
`"post"` key yields a one-element sequence; but a bare single object with
neither key yields the empty sequence. -/
theorem c8_amended :
    (∀ l, extract_posts (.list l) = some l) ∧
    (∀ d l, dget d "post" = .list l → l ≠ [] →
        extract_posts (.dict d) = some l) ∧
    (∀ d l, truthy (dget d "post") = false → dget d "posts" = .list l →
        l ≠ [] → extract_posts (.dict d) = some l) ∧
    (∀ d p, dget d "post" = .dict p → p ≠ [] →
        extract_posts (.dict d) = some [.dict p]) ∧
    (∀ d, truthy (dget d "post") = false → truthy (dget d "posts") = false →
        extract_posts (.dict d) = some []) := by
  have htl : ∀ (l : List JVal), l ≠ [] → truthy (.list l) = true := by
    intro l hl
    cases l with
    | nil => exact absurd rfl hl
    | cons a as => rfl
  have htd : ∀ (p : Dict), p ≠ [] → truthy (.dict p) = true := by
    intro p hp
    cases p with
    | nil => exact absurd rfl hp
    | cons a as => rfl
  refine ⟨fun l => rfl, ?_, ?_, ?_, ?_⟩
  · intro d l h hne
    simp [extract_posts, pyOr, h, htl l hne]
  · intro d l hfal h hne
    simp [extract_posts, pyOr, h, hfal, htl l hne]
  · intro d p h hne
    simp [extract_posts, pyOr, h, htd p hne]
  · intro d h1 h2
    simp [extract_posts, pyOr, h1, h2]

/-- Witness for C8 (amended): concrete instances of the three accepted
shapes and of the bare-single-object behavior. -/
theorem c8_witness :
    extract_posts (.list [mkPost 1]) = some [mkPost 1] ∧
    extract_posts (.dict [("post", .list [mkPost 1])]) = some [mkPost 1] ∧
    extract_posts (.dict [("posts", .list [mkPost 2])]) = some [mkPost 2] ∧
    extract_posts (.dict [("post", .dict postIdZero)]) = some [.dict postIdZero] ∧
    extract_posts (.dict [("id", .int 5)]) = some [] :=
  ⟨c8_amended.1 [mkPost 1],
   c8_amended.2.1 [("post", .list [mkPost 1])] [mkPost 1] rfl (by simp),
   c8_amended.2.2.1 [("posts", .list [mkPost 2])] [mkPost 2] rfl rfl (by simp),
   c8_amended.2.2.2.1 [("post", .dict postIdZero)] postIdZero rfl (by simp [postIdZero]),
   c8_amended.2.2.2.2 [("id", .int 5)] rfl rfl⟩

/-- Counterexample for C9: the record `{"id": 0, "file_url": ...}` carries
an upstream identifier, yet the name used for its files is the synthesized
timestamp-based fallback, which is different at different clock readings —
not the upstream value, and not stable across runs. -/
theorem c9_counterexample :
    postIdOf postIdZero 1111 = .str "1111" ∧
    postIdOf postIdZero 1111 ≠ .int 0 ∧
    postIdOf postIdZero 1111 ≠ postIdOf postIdZero 2222 := by
  have h1 : postIdOf postIdZero 1111 = .str "1111" := rfl
  have h2 : postIdOf postIdZero 2222 = .str "2222" := rfl
  refine ⟨h1, ?_, ?_⟩
  · rw [h1]
    exact fun h => JVal.noConfusion h
  · rw [h1, h2]
    intro h
    have hs : ("1111" : String) = "2222" := by injection h
    exact absurd hs (by decide)

/-- Claim C9 (amended): the file-naming identifier is the first truthy
value among the `id`, `post_id` and `file_id` fields — in particular it is
the upstream `id` whenever that value is truthy (nonzero, nonempty), and
it is then independent of the clock, hence stable across runs; the
synthesized fallback `str(clock)` is used exactly when all three probed
values are absent or falsy. -/
theorem c9_amended :
    (∀ (post : Dict) (clock : Nat), truthy (dget post "id") = true →
        postIdOf post clock = dget post "id") ∧
    (∀ (post : Dict) (clock : Nat), truthy (dget post "id") = false →
        truthy (dget post "post_id") = true →
        postIdOf post clock = dget post "post_id") ∧
    (∀ (post : Dict) (clock : Nat), truthy (dget post "id") = false →
        truthy (dget post "post_id") = false →
        truthy (dget post "file_id") = true →
        postIdOf post clock = dget post "file_id") ∧
    (∀ (post : Dict) (clock : Nat), truthy (dget post "id") = false →
        truthy (dget post "post_id") = false →
        truthy (dget post "file_id") = false →
        postIdOf post clock = .str (toString clock)) := by
  refine ⟨?_, ?_, ?_, ?_⟩ <;> intro post clock <;> intros <;>
    simp [postIdOf, pyOr, *]

/-- Witness for C9 (amended): a record with upstream `id = 7` names its
files `7` at every clock reading; the all-falsy record falls back to the
clock. -/
theorem c9_witness :
    postIdOf [("id", .int 7)] 1111 = .int 7 ∧
    postIdOf [("id", .int 7)] 2222 = .int 7 ∧
    postIdOf postIdZero 3333 = .str "3333" :=
  ⟨c9_amended.1 [("id", .int 7)] 1111 rfl,
   c9_amended.1 [("id", .int 7)] 2222 rfl,
   c9_amended.2.2.2 postIdZero 3333 rfl rfl rfl⟩

/-- Counterexample for C1: with the target ratio 16/9 configured, the post
`postH0` — whose probed height is 0 — is not rejected: the guard
`if ratios and w and h` skips the ratio filter on falsy dimensions, so the
post is accepted, its image is fetched and written, and it is counted as
downloaded. -/
theorem c1_counterexample :
    get_dimensions postH0 = (some 100, some 0) ∧
    cfgPlain.ratios = [16 / 9] ∧
    processPost cfgPlain envYes (initSt 0) (.dict postH0) =
      .ok { downloaded := 1,
            written := [("out/images/9.jpg", .image "https://x/a.jpg"),
                        ("out/tags/9.txt", .text "")],
            fetched := ["https://x/a.jpg"], warnings := [], clock := 1 } :=
  ⟨rfl, rfl, rfl⟩

/-- Claim C1 (amended): the ratio filter never rejects a post whose probed
width or height is falsy (absent, or equal to 0) — such posts bypass the
filter entirely; it does reject every post whose dimensions are both
present and nonzero when no configured target ratio is within tolerance,
in which case the post is skipped without being counted or downloaded. -/
theorem c1_amended :
    (∀ (ratios : List Rat) (w h : Option Int),
        truthyI w = false ∨ truthyI h = false →
        ratioRejects ratios w h = false) ∧
    (∀ (ratios : List Rat) (wv hv : Int), ratios ≠ [] → wv ≠ 0 → hv ≠ 0 →
        ratios.any (fun t => ratioMatches ((wv : Rat) / (hv : Rat)) t) = false →
        ratioRejects ratios (some wv) (some hv) = true) ∧
    (∀ (cfg : Config) (env : Env) (st : St) (post : Dict) (u : String)
        (tg : JVal),
        get_image_url_from_post post = some (.str u) →
        extOfUrl u ∉ VIDEO_EXTENSIONS →
        get_tags_from_post post = some tg →
        ratioRejects cfg.ratios (get_dimensions post).1 (get_dimensions post).2
          = true →
        processPost cfg env st (.dict post) = .ok (tick st)) := by
  refine ⟨?_, ?_, ?_⟩
  · intro ratios w h hwh
    rcases hwh with hw | hh
    · simp [ratioRejects, hw]
    · simp [ratioRejects, hh]
  · intro ratios wv hv hne hwv hhv hmatch
    have h1 : ratios.isEmpty = false := by
      cases ratios with
      | nil => exact absurd rfl hne
      | cons q qs => rfl
    simp [ratioRejects, truthyI, h1, hwv, hhv, hmatch]
  · intro cfg env st post u tg hurl hext htags hrej
    simp [processPost, hurl, hext, htags, hrej]

/-- Witness for C1 (amended): probed dimensions `(100, 0)` bypass the
filter; a complete 1×1 post is rejected when the only target is 2. -/
theorem c1_witness :
    ratioRejects [(16 : Rat) / 9] (some 100) (some 0) = false ∧
    ratioRejects [(2 : Rat)] (some 1) (some 1) = true ∧
    processPost cfgR2 envYes (initSt 0) (.dict postWH1) =
      .ok (tick (initSt 0)) :=
  ⟨c1_amended.1 [(16 : Rat) / 9] (some 100) (some 0) (Or.inr rfl),
   c1_amended.2.1 [2] 1 1 (List.cons_ne_nil 2 []) one_ne_zero one_ne_zero
     (by norm_num [ratioMatches]),
   c1_amended.2.2 cfgR2 envYes (initSt 0) postWH1 "https://x/a.jpg"
     (.str "") rfl (by decide) rfl
     (c1_amended.2.1 [2] 1 1 (List.cons_ne_nil 2 []) one_ne_zero one_ne_zero
        (by norm_num [ratioMatches]))⟩

/-- Counterexample for C2: the ratio string `"5:0"` does not produce the
reported `InvalidRatio` outcome — `float("5")/float("0")` raises
`ZeroDivisionError`, which the `except ValueError` handler in `main` does
not catch, so the run aborts with an uncaught exception instead. -/
theorem c2_counterexample :
    mainRatioStep ["5:0"] = .crashed .zeroDivisionError ∧
    mainRatioStep ["5:0"] ≠ .reportedInvalidRatio :=
  ⟨rfl, by decide⟩

/-- Claim C2 (amended): for every ratio string of form `A:B` or `A/B` with
numeric parts and nonzero denominator, `parse_ratio` returns exactly A/B,
and for a plain decimal it returns that value; a string whose parts are
non-numeric raises `ValueError`, which `main` catches and reports as the
invalid-ratio condition before any network activity; a zero denominator
instead raises an uncaught `ZeroDivisionError` (see the counterexample),
which also precedes any network activity but is not the reported
invalid-ratio outcome. -/
theorem c2_amended :
    (∀ (a b : List Char) (x y : Rat), pyFloatL a = some x →
        pyFloatL b = some y → y ≠ 0 →
        parse_ratioL (a ++ ':' :: b) = .ok (x / y) ∧
        parse_ratioL (a ++ '/' :: b) = .ok (x / y)) ∧
    (∀ (d : List Char) (x : Rat), pyFloatL d = some x →
        parse_ratioL d = .ok x) ∧
    (∀ s : String, parse_ratio s = .error .valueError →
        mainRatioStep [s] = .reportedInvalidRatio) := by
  refine ⟨?_, ?_, ?_⟩
  · intro a b x y hx hy hy0
    obtain ⟨hca, hsa⟩ := pyFloatL_no_sep hx
    obtain ⟨hcb, hsb⟩ := pyFloatL_no_sep hy
    constructor
    · simp [parse_ratioL, splitOnChar_pair hca hcb, hx, hy, hy0]
    · simp [parse_ratioL, hca, hcb, splitOnChar_pair hsa hsb, hx, hy, hy0]
  · intro d x hx
    obtain ⟨hcd, hsd⟩ := pyFloatL_no_sep hx
    simp [parse_ratioL, hcd, hsd, hx]
  · intro s herr
    simp [mainRatioStep, parseRatioList, herr]

/-- Witness for C2 (amended): `"16:9"` parses to 16/9, `"4/3"` to 4/3, the
plain decimal `"2"` to 2, and the non-numeric `"x:y"` is reported as the
invalid-ratio condition. -/
theorem c2_witness :
    parse_ratioL (['1', '6'] ++ ':' :: ['9']) = .ok ((16 : Rat) / 9) ∧
    parse_ratioL (['4'] ++ '/' :: ['3']) = .ok ((4 : Rat) / 3) ∧
    parse_ratioL ['2'] = .ok (2 : Rat) ∧
    mainRatioStep ["x:y"] = .reportedInvalidRatio :=
  ⟨(c2_amended.1 ['1', '6'] ['9'] 16 9 rfl rfl (by norm_num)).1,
   (c2_amended.1 ['4'] ['3'] 4 3 rfl rfl (by norm_num)).2,
   c2_amended.2.1 ['2'] 2 rfl,
   c2_amended.2.2 "x:y" rfl⟩

/-- Counterexample for C5: a transport error during the streamed body
read of an accepted post's image — raised by `iter_content`, outside
`download_file`'s `try`, with no handler at the call site — is not logged
as a warning and does not let the loop continue: the whole run crashes
uncaught, leaving a truncated image file and an empty warning list. -/
theorem c5_counterexample :
    run cfgPlain envStreamErr 5 0 =
      .crashed { downloaded := 0,
                 written := [("out/images/1.jpg",
                   .truncatedImage "https://x/a.jpg")],
                 fetched := ["https://x/a.jpg"], warnings := [], clock := 0 } ∧
    (runState (run cfgPlain envStreamErr 5 0)).warnings = [] :=
  ⟨rfl, rfl⟩

/-- Claim C5 (amended): when the destination does not already exist, a
transport/HTTP error raised by the initial request
(`session.get`/`raise_for_status`) is caught — a warning is appended, no
file is written, the count is unchanged — and the post loop proceeds to
the next post; on a fully successful transfer the image and the tag text
are written and the count increments; but a transport error during the
streamed body read is uncaught: the step crashes with the truncated image
file recorded and no warning, and the post loop aborts instead of
continuing. -/
theorem c5_download_failure_skips_post :
    (∀ (cfg : Config) (env : Env) (st : St) (post : Dict) (u ext0 ts : String),
        pathExists env st (imgPathOf cfg post st.clock ext0) = false →
        env.getImage u = .requestError →
        downloadStage cfg env st post u ext0 (.str ts) =
          .ok { tick st with
                fetched := st.fetched ++ [u],
                warnings := st.warnings ++ [.downloadFailed u] }) ∧
    (∀ (cfg : Config) (env : Env) (st : St) (post : Dict) (u ext0 ts : String),
        pathExists env st (imgPathOf cfg post st.clock ext0) = false →
        env.getImage u = .ok →
        downloadStage cfg env st post u ext0 (.str ts) =
          .ok { tick st with
                fetched := st.fetched ++ [u],
                written := st.written ++
                  [(imgPathOf cfg post st.clock ext0, .image u),
                   (txtPathOf cfg post st.clock, .text ts)],
                downloaded := st.downloaded + 1 }) ∧
    (∀ (cfg : Config) (env : Env) (st : St) (post : Dict) (u ext0 ts : String),
        pathExists env st (imgPathOf cfg post st.clock ext0) = false →
        env.getImage u = .streamError →
        downloadStage cfg env st post u ext0 (.str ts) =
          .crash { st with
                   fetched := st.fetched ++ [u],
                   written := st.written ++
                     [(imgPathOf cfg post st.clock ext0,
                       .truncatedImage u)] }) ∧
    (∀ (cfg : Config) (env : Env) (pJ : JVal) (ps : List JVal) (st st' : St),
        st.downloaded < cfg.max_images →
        processPost cfg env st pJ = .ok st' →
        processPosts cfg env (pJ :: ps) st = processPosts cfg env ps st') ∧
    (∀ (cfg : Config) (env : Env) (pJ : JVal) (ps : List JVal) (st st' : St),
        st.downloaded < cfg.max_images →
        processPost cfg env st pJ = .crash st' →
        processPosts cfg env (pJ :: ps) st = .crash st') := by
  refine ⟨?_, ?_, ?_, ?_, ?_⟩
  · intro cfg env st post u ext0 ts hex hget
    simp [downloadStage, hex, hget, tick]
  · intro cfg env st post u ext0 ts hex hget
    simp [downloadStage, hex, hget, tick]
  · intro cfg env st post u ext0 ts hex hget
    simp [downloadStage, hex, hget]
  · intro cfg env pJ ps st st' hlt hpp
    simp [processPosts, hlt.not_le, hpp]
  · intro cfg env pJ ps st st' hlt hpp
    simp [processPosts, hlt.not_le, hpp]

/-- Witness for C5 (amended): the caught request failure records a warning
and writes nothing; the successful transfer writes both files and counts;
the mid-stream failure crashes with a truncated file and no warning; the
post loop continues past the caught failure and aborts on the uncaught
one. -/
theorem c5_witness :
    downloadStage cfgPlain envFailDl (initSt 0) (mkPostD 1)
        "https://x/a.jpg" ".jpg" (.str "tag") =
      .ok { tick (initSt 0) with
            fetched := ["https://x/a.jpg"],
            warnings := [.downloadFailed "https://x/a.jpg"] } ∧
    downloadStage cfgPlain envYes (initSt 0) (mkPostD 1)
        "https://x/a.jpg" ".jpg" (.str "tag") =
      .ok { tick (initSt 0) with
            fetched := ["https://x/a.jpg"],
            written := [("out/images/1.jpg", .image "https://x/a.jpg"),
                        ("out/tags/1.txt", .text "tag")],
            downloaded := 1 } ∧
    downloadStage cfgPlain envStreamErr (initSt 0) (mkPostD 1)
        "https://x/a.jpg" ".jpg" (.str "tag") =
      .crash { initSt 0 with
               fetched := ["https://x/a.jpg"],
               written := [("out/images/1.jpg",
                 .truncatedImage "https://x/a.jpg")] } ∧
    processPosts cfgPlain envFailDl [mkPost 1, mkPost 2] (initSt 0) =
      processPosts cfgPlain envFailDl [mkPost 2]
        { initSt 0 with
          fetched := ["https://x/a.jpg"],
          warnings := [.downloadFailed "https://x/a.jpg"], clock := 1 } ∧
    processPosts cfgPlain envStreamErr [mkPost 1, mkPost 2] (initSt 0) =
      .crash { initSt 0 with
               fetched := ["https://x/a.jpg"],
               written := [("out/images/1.jpg",
                 .truncatedImage "https://x/a.jpg")] } :=
  ⟨by
     have h := c5_download_failure_skips_post.1 cfgPlain envFailDl (initSt 0)
       (mkPostD 1) "https://x/a.jpg" ".jpg" "tag" rfl rfl
     simpa using h,
   by
     have h := c5_download_failure_skips_post.2.1 cfgPlain envYes (initSt 0)
       (mkPostD 1) "https://x/a.jpg" ".jpg" "tag" rfl rfl
     simpa using h,
   by
     have h := c5_download_failure_skips_post.2.2.1 cfgPlain envStreamErr
       (initSt 0) (mkPostD 1) "https://x/a.jpg" ".jpg" "tag" rfl rfl
     simpa using h,
   by
     have h := c5_download_failure_skips_post.2.2.2.1 cfgPlain envFailDl
       (mkPost 1) [mkPost 2] (initSt 0)
       { initSt 0 with
         fetched := ["https://x/a.jpg"],
         warnings := [.downloadFailed "https://x/a.jpg"], clock := 1 }
       (by decide) rfl
     exact h,
   by
     have h := c5_download_failure_skips_post.2.2.2.2 cfgPlain envStreamErr
       (mkPost 1) [mkPost 2] (initSt 0)
       { initSt 0 with
         fetched := ["https://x/a.jpg"],
         written := [("out/images/1.jpg",
           .truncatedImage "https://x/a.jpg")] }
       (by decide) rfl
     exact h⟩

/-- Claim C7: with the budget not yet reached, one cycle of the page loop
terminates exactly as specified — a fetch/decode error stops it with the
count preserved (and a warning), an empty result list stops it with the
state untouched, a short page stops it only after the post loop has run on
that page's records, and otherwise the loop recurses with the page cursor
advanced by one; moreover, while the budget is not reached the post loop
never skips a record. -/
theorem c7_pagination_termination (cfg : Config) (env : Env) (fuel : Nat)
    (page : Int) (st : St) (hbudget : st.downloaded < cfg.max_images) :
    (env.pages (page + 1) = .fail →
        runLoop cfg env (fuel + 1) page st =
          .finished { st with
            warnings := st.warnings ++ [.pageFetchFailed (page + 1)] }) ∧
    (∀ data, env.pages (page + 1) = .ok data → extract_posts data = some [] →
        runLoop cfg env (fuel + 1) page st = .finished st) ∧
    (∀ data posts st', env.pages (page + 1) = .ok data →
        extract_posts data = some posts → posts ≠ [] →
        (posts.length : Int) < cfg.per_page →
        processPosts cfg env posts st = .ok st' →
        runLoop cfg env (fuel + 1) page st = .finished st') ∧
    (∀ data posts st', env.pages (page + 1) = .ok data →
        extract_posts data = some posts → posts ≠ [] →
        ¬ (posts.length : Int) < cfg.per_page →
        processPosts cfg env posts st = .ok st' →
        runLoop cfg env (fuel + 1) page st =
          runLoop cfg env fuel (page + 1) st') ∧
    (∀ (p : JVal) (ps : List JVal),
        processPosts cfg env (p :: ps) st =
          match processPost cfg env st p with
          | .ok st1 => processPosts cfg env ps st1
          | .crash st1 => .crash st1) := by
  have hempty : ∀ (posts : List JVal), posts ≠ [] → posts.isEmpty = false := by
    intro posts h
    cases posts with
    | nil => exact absurd rfl h
    | cons a as => rfl
  refine ⟨?_, ?_, ?_, ?_, ?_⟩
  · intro hpg
    simp [runLoop, hbudget, hpg]
  · intro data hpg hex
    simp [runLoop, hbudget, hpg, hex]
  · intro data posts st' hpg hex hne hshort hpp
    simp [runLoop, hbudget, hpg, hex, hempty posts hne, hshort, hpp]
  · intro data posts st' hpg hex hne hlong hpp
    simp [runLoop, hbudget, hpg, hex, hempty posts hne, hlong, hpp]
  · intro p ps
    simp [processPosts, hbudget.not_le]

/-- Witness for C7: concrete instances of the error stop, the
empty-page stop and the post-loop step. -/
theorem c7_witness :
    runLoop cfgTwo envYes 3 0 (initSt 0) =
      .finished { initSt 0 with warnings := [.pageFetchFailed 1] } ∧
    runLoop cfgTwo envEmptyPage 3 0 (initSt 0) = .finished (initSt 0) ∧
    processPosts cfgTwo envEmptyPage [mkPost 1] (initSt 0) =
      match processPost cfgTwo envEmptyPage (initSt 0) (mkPost 1) with
      | .ok st1 => processPosts cfgTwo envEmptyPage [] st1
      | .crash st1 => .crash st1 :=
  ⟨by
     have h := (c7_pagination_termination cfgTwo envYes 2 0 (initSt 0)
       (by decide)).1 rfl
     simpa using h,
   by
     have h := (c7_pagination_termination cfgTwo envEmptyPage 2 0 (initSt 0)
       (by decide)).2.1 (.list []) rfl rfl
     simpa using h,
   (c7_pagination_termination cfgTwo envEmptyPage 2 0 (initSt 0)
       (by decide)).2.2.2.2 (mkPost 1) []⟩

/-- The download stage changes the count by at most one, and never
decreases it. -/
theorem downloadStage_downloaded_bound (cfg : Config) (env : Env) (st : St)
    (post : Dict) (u ext0 : String) (tags : JVal) :
    st.downloaded ≤ (stResSt (downloadStage cfg env st post u ext0 tags)).downloaded ∧
    (stResSt (downloadStage cfg env st post u ext0 tags)).downloaded ≤
      st.downloaded + 1 := by
  by_cases hex : pathExists env st (imgPathOf cfg post st.clock ext0) = true
  · constructor <;> simp [downloadStage, hex, stResSt, tick]
  · cases hget : env.getImage u with
    | requestError =>
        constructor <;> simp [downloadStage, hex, hget, stResSt, tick]
    | ok =>
        cases tags <;> constructor <;>
          simp [downloadStage, hex, hget, stResSt, tick]
    | streamError =>
        constructor <;> simp [downloadStage, hex, hget, stResSt, tick]

/-- Processing one post changes the count by at most one, and never
decreases it. -/
theorem processPost_downloaded_bound (cfg : Config) (env : Env) (st : St)
    (pJ : JVal) :
    st.downloaded ≤ (stResSt (processPost cfg env st pJ)).downloaded ∧
    (stResSt (processPost cfg env st pJ)).downloaded ≤ st.downloaded + 1 := by
  cases pJ with
  | dict post =>
      cases hurl : get_image_url_from_post post with
      | none => constructor <;> simp [processPost, hurl, stResSt, tick]
      | some v =>
          cases v with
          | str u =>
              by_cases hext : extOfUrl u ∈ VIDEO_EXTENSIONS
              · constructor <;>
                  simp [processPost, hurl, hext, stResSt, tick]
              · cases htags : get_tags_from_post post with
                | none =>
                    constructor <;>
                      simp [processPost, hurl, hext, htags, stResSt]
                | some tg =>
                    by_cases h1 : ratioRejects cfg.ratios
                        (get_dimensions post).1 (get_dimensions post).2 = true
                    · constructor <;>
                        simp [processPost, hurl, hext, htags, h1, stResSt,
                          tick]
                    · by_cases h2 : minDimRejects cfg.min_w
                          (get_dimensions post).1 = true
                      · constructor <;>
                          simp [processPost, hurl, hext, htags, h1, h2,
                            stResSt, tick]
                      · by_cases h3 : minDimRejects cfg.min_h
                            (get_dimensions post).2 = true
                        · constructor <;>
                            simp [processPost, hurl, hext, htags, h1, h2, h3,
                              stResSt, tick]
                        · by_cases h4 : scoreRejects cfg.min_score post = true
                          · constructor <;>
                              simp [processPost, hurl, hext, htags, h1, h2,
                                h3, h4, stResSt, tick]
                          · have heq : processPost cfg env st (.dict post) =
                                downloadStage cfg env st post u (extOfUrl u) tg := by
                              simp [processPost, hurl, hext, htags, h1, h2,
                                h3, h4]
                            rw [heq]
                            exact downloadStage_downloaded_bound cfg env st
                              post u (extOfUrl u) tg
          | none => constructor <;>
              simp [processPost, hurl, stResSt, tick]
          | int n => constructor <;>
              simp [processPost, hurl, stResSt, tick]
          | list l => constructor <;>
              simp [processPost, hurl, stResSt, tick]
          | dict d => constructor <;>
              simp [processPost, hurl, stResSt, tick]
  | none => constructor <;> simp [processPost, stResSt]
  | int n => constructor <;> simp [processPost, stResSt]
  | str s => constructor <;> simp [processPost, stResSt]
  | list l => constructor <;> simp [processPost, stResSt]

/-- Invariant: the post loop never pushes the count past the budget. -/
theorem processPosts_downloaded_le (cfg : Config) (env : Env) :
    ∀ (posts : List JVal) (st : St), st.downloaded ≤ cfg.max_images →
      (stResSt (processPosts cfg env posts st)).downloaded ≤ cfg.max_images := by
  intro posts
  induction posts with
  | nil => intro st h; simpa [processPosts, stResSt] using h
  | cons p ps ih =>
      intro st h
      by_cases hge : st.downloaded ≥ cfg.max_images
      · simpa [processPosts, hge, stResSt] using h
      · simp only [processPosts, if_neg hge]
        cases hpp : processPost cfg env st p with
        | ok st' =>
            have hb := (processPost_downloaded_bound cfg env st p).2
            rw [hpp] at hb
            simp only [stResSt] at hb
            exact ih st' (by omega)
        | crash st' =>
            have hb := (processPost_downloaded_bound cfg env st p).2
            rw [hpp] at hb
            simp only [stResSt] at hb ⊢
            omega

/-- Invariant: the page loop never pushes the count past the budget. -/
theorem runLoop_downloaded_le (cfg : Config) (env : Env) :
    ∀ (fuel : Nat) (page : Int) (st : St), st.downloaded ≤ cfg.max_images →
      (runState (runLoop cfg env fuel page st)).downloaded ≤ cfg.max_images := by
  intro fuel
  induction fuel with
  | zero => intro page st h; simpa [runLoop, runState] using h
  | succ n ih =>
      intro page st h
      by_cases hlt : st.downloaded < cfg.max_images
      · cases hpg : env.pages (page + 1) with
        | fail =>
            have heq : runLoop cfg env (n + 1) page st =
                .finished { st with
                  warnings := st.warnings ++ [.pageFetchFailed (page + 1)] } := by
              simp [runLoop, hlt, hpg]
            rw [heq]
            simpa [runState] using h
        | ok data =>
            cases hex : extract_posts data with
            | none =>
                have heq : runLoop cfg env (n + 1) page st = .crashed st := by
                  simp [runLoop, hlt, hpg, hex]
                rw [heq]
                simpa [runState] using h
            | some posts =>
                by_cases hemp : posts.isEmpty
                · have heq : runLoop cfg env (n + 1) page st = .finished st := by
                    simp [runLoop, hlt, hpg, hex, hemp]
                  rw [heq]
                  simpa [runState] using h
                · cases hpp : processPosts cfg env posts st with
                  | crash st' =>
                      have hb := processPosts_downloaded_le cfg env posts st h
                      rw [hpp] at hb
                      simp only [stResSt] at hb
                      have heq : runLoop cfg env (n + 1) page st = .crashed st' := by
                        simp [runLoop, hlt, hpg, hex, hemp, hpp]
                      rw [heq]
                      simpa [runState] using hb
                  | ok st' =>
                      have hb := processPosts_downloaded_le cfg env posts st h
                      rw [hpp] at hb
                      simp only [stResSt] at hb
                      by_cases hshort : (posts.length : Int) < cfg.per_page
                      · have heq : runLoop cfg env (n + 1) page st =
                            .finished st' := by
                          simp [runLoop, hlt, hpg, hex, hemp, hshort, hpp]
                        rw [heq]
                        simpa [runState] using hb
                      · have heq : runLoop cfg env (n + 1) page st =
                            runLoop cfg env n (page + 1) st' := by
                          simp [runLoop, hlt, hpg, hex, hemp, hshort, hpp]
                        rw [heq]
                        exact ih (page + 1) st' hb
      · have heq : runLoop cfg env (n + 1) page st = .finished st := by
          simp [runLoop, hlt]
        rw [heq]
        simpa [runState] using h

/-- When every post on the page is counted when processed and the page
holds at least the remaining budget, the post loop ends exactly at the
budget. -/
theorem processPosts_exact (cfg : Config) (env : Env) :
    ∀ (posts : List JVal) (st : St), st.downloaded ≤ cfg.max_images →
      cfg.max_images ≤ st.downloaded + posts.length →
      (∀ p ∈ posts, ∀ s : St, ∃ s', processPost cfg env s p = .ok s' ∧
          s'.downloaded = s.downloaded + 1) →
      ∃ st', processPosts cfg env posts st = .ok st' ∧
             st'.downloaded = cfg.max_images := by
  intro posts
  induction posts with
  | nil =>
      intro st h1 h2 _
      refine ⟨st, by simp [processPosts], ?_⟩
      simp only [List.length_nil, Nat.cast_zero, add_zero] at h2
      omega
  | cons p ps ih =>
      intro st h1 h2 hall
      by_cases hge : st.downloaded ≥ cfg.max_images
      · exact ⟨st, by simp [processPosts, hge], le_antisymm h1 hge⟩
      · obtain ⟨s', hs', hinc⟩ := hall p (List.mem_cons_self p ps) st
        have h1' : s'.downloaded ≤ cfg.max_images := by omega
        have h2' : cfg.max_images ≤ s'.downloaded + ps.length := by
          simp only [List.length_cons, Nat.cast_add, Nat.cast_one] at h2
          omega
        obtain ⟨st', hst', hmax⟩ :=
          ih s' h1' h2' (fun q hq s => hall q (List.mem_cons_of_mem p hq) s)
        refine ⟨st', ?_, hmax⟩
        simp [processPosts, hge, hs', hst']

/-- If every destination this record could use already exists, the post
step writes no file and attempts no image GET. -/
theorem processPost_preserves_of_exists (cfg : Config) (env : Env) (st : St)
    (pJ : JVal)
    (hsat : ∀ (post : Dict) (u : String), pJ = .dict post →
        get_image_url_from_post post = some (.str u) →
        env.exists0 (imgPathOf cfg post st.clock (extOfUrl u)) = true) :
    (stResSt (processPost cfg env st pJ)).written = st.written ∧
    (stResSt (processPost cfg env st pJ)).fetched = st.fetched := by
  cases pJ with
  | dict post =>
      cases hurl : get_image_url_from_post post with
      | none => constructor <;> simp [processPost, hurl, stResSt, tick]
      | some v =>
          cases v with
          | str u =>
              have hsx := hsat post u rfl hurl
              by_cases hext : extOfUrl u ∈ VIDEO_EXTENSIONS
              · constructor <;> simp [processPost, hurl, hext, stResSt, tick]
              · cases htags : get_tags_from_post post with
                | none =>
                    constructor <;>
                      simp [processPost, hurl, hext, htags, stResSt]
                | some tg =>
                    by_cases h1 : ratioRejects cfg.ratios
                        (get_dimensions post).1 (get_dimensions post).2 = true
                    · constructor <;>
                        simp [processPost, hurl, hext, htags, h1, stResSt, tick]
                    · by_cases h2 : minDimRejects cfg.min_w
                          (get_dimensions post).1 = true
                      · constructor <;>
                          simp [processPost, hurl, hext, htags, h1, h2,
                            stResSt, tick]
                      · by_cases h3 : minDimRejects cfg.min_h
                            (get_dimensions post).2 = true
                        · constructor <;>
                            simp [processPost, hurl, hext, htags, h1, h2, h3,
                              stResSt, tick]
                        · by_cases h4 : scoreRejects cfg.min_score post = true
                          · constructor <;>
                              simp [processPost, hurl, hext, htags, h1, h2,
                                h3, h4, stResSt, tick]
                          · have heq : processPost cfg env st (.dict post) =
                                downloadStage cfg env st post u (extOfUrl u)
                                  tg := by
                              simp [processPost, hurl, hext, htags, h1, h2,
                                h3, h4]
                            have hpe : pathExists env st
                                (imgPathOf cfg post st.clock (extOfUrl u))
                                  = true := by
                              simp [pathExists, hsx]
                            rw [heq]
                            constructor <;>
                              simp [downloadStage, hpe, stResSt, tick]
          | none => constructor <;> simp [processPost, hurl, stResSt, tick]
          | int n => constructor <;> simp [processPost, hurl, stResSt, tick]
          | list l => constructor <;> simp [processPost, hurl, stResSt, tick]
          | dict d => constructor <;> simp [processPost, hurl, stResSt, tick]
  | none => constructor <;> simp [processPost, stResSt]
  | int n => constructor <;> simp [processPost, stResSt]
  | str s => constructor <;> simp [processPost, stResSt]
  | list l => constructor <;> simp [processPost, stResSt]

/-- The post loop writes and fetches nothing when every record's possible
destination already exists. -/
theorem processPosts_preserves (cfg : Config) (env : Env) :
    ∀ (posts : List JVal) (st : St),
      (∀ pJ ∈ posts, ∀ (post : Dict) (u : String), pJ = .dict post →
          get_image_url_from_post post = some (.str u) →
          ∀ clock, env.exists0 (imgPathOf cfg post clock (extOfUrl u)) = true) →
      (stResSt (processPosts cfg env posts st)).written = st.written ∧
      (stResSt (processPosts cfg env posts st)).fetched = st.fetched := by
  intro posts
  induction posts with
  | nil => intro st _; constructor <;> simp [processPosts, stResSt]
  | cons p ps ih =>
      intro st hsat
      by_cases hge : st.downloaded ≥ cfg.max_images
      · constructor <;> simp [processPosts, hge, stResSt]
      · simp only [processPosts, if_neg hge]
        have hp := processPost_preserves_of_exists cfg env st p
          (fun post u hpd hurl =>
            hsat p (List.mem_cons_self p ps) post u hpd hurl st.clock)
        cases hpp : processPost cfg env st p with
        | ok st' =>
            rw [hpp] at hp
            simp only [stResSt] at hp
            have hps := ih st' (fun q hq => hsat q (List.mem_cons_of_mem p hq))
            exact ⟨hps.1.trans hp.1, hps.2.trans hp.2⟩
        | crash st' =>
            rw [hpp] at hp
            simp only [stResSt] at hp ⊢
            exact hp

/-- The page loop writes and fetches nothing when every reachable record's
possible destination already exists. -/
theorem runLoop_preserves (cfg : Config) (env : Env)
    (hsat : ∀ (page : Int) (data : JVal) (posts : List JVal),
        env.pages page = .ok data → extract_posts data = some posts →
        ∀ pJ ∈ posts, ∀ (post : Dict) (u : String), pJ = .dict post →
          get_image_url_from_post post = some (.str u) →
          ∀ clock, env.exists0 (imgPathOf cfg post clock (extOfUrl u)) = true) :
    ∀ (fuel : Nat) (page : Int) (st : St),
      (runState (runLoop cfg env fuel page st)).written = st.written ∧
      (runState (runLoop cfg env fuel page st)).fetched = st.fetched := by
  intro fuel
  induction fuel with
  | zero => intro page st; constructor <;> simp [runLoop, runState]
  | succ n ih =>
      intro page st
      by_cases hlt : st.downloaded < cfg.max_images
      · cases hpg : env.pages (page + 1) with
        | fail =>
            have heq : runLoop cfg env (n + 1) page st =
                .finished { st with
                  warnings := st.warnings ++ [.pageFetchFailed (page + 1)] } := by
              simp [runLoop, hlt, hpg]
            rw [heq]
            constructor <;> simp [runState]
        | ok data =>
            cases hex : extract_posts data with
            | none =>
                have heq : runLoop cfg env (n + 1) page st = .crashed st := by
                  simp [runLoop, hlt, hpg, hex]
                rw [heq]
                constructor <;> simp [runState]
            | some posts =>
                by_cases hemp : posts.isEmpty
                · have heq : runLoop cfg env (n + 1) page st = .finished st := by
                    simp [runLoop, hlt, hpg, hex, hemp]
                  rw [heq]
                  constructor <;> simp [runState]
                · have hps := processPosts_preserves cfg env posts st
                    (hsat (page + 1) data posts hpg hex)
                  cases hpp : processPosts cfg env posts st with
                  | crash st' =>
                      rw [hpp] at hps
                      simp only [stResSt] at hps
                      have heq : runLoop cfg env (n + 1) page st =
                          .crashed st' := by
                        simp [runLoop, hlt, hpg, hex, hemp, hpp]
                      rw [heq]
                      exact hps
                  | ok st' =>
                      rw [hpp] at hps
                      simp only [stResSt] at hps
                      by_cases hshort : (posts.length : Int) < cfg.per_page
                      · have heq : runLoop cfg env (n + 1) page st =
                            .finished st' := by
                          simp [runLoop, hlt, hpg, hex, hemp, hshort, hpp]
                        rw [heq]
                        exact hps
                      · have heq : runLoop cfg env (n + 1) page st =
                            runLoop cfg env n (page + 1) st' := by
                          simp [runLoop, hlt, hpg, hex, hemp, hshort, hpp]
                        rw [heq]
                        have hrec := ih (page + 1) st'
                        exact ⟨hrec.1.trans hps.1, hrec.2.trans hps.2⟩
      · have heq : runLoop cfg env (n + 1) page st = .finished st := by
          simp [runLoop, hlt]
        rw [heq]
        constructor <;> simp [runState]

/-- Claim C4: a filter-accepted post whose destination image path already
exists is counted as already-downloaded with no image fetch and no write,
and the loop continues; consequently a run over an environment in which
every reachable record's destination already exists writes no file and
fetches no image at all — rerunning over an unchanged, already-satisfied
output directory downloads zero bytes and leaves the filesystem unchanged. -/
theorem c4_skip_if_exists_idempotent :
    (∀ (cfg : Config) (env : Env) (st : St) (post : Dict) (u ext0 : String)
        (tags : JVal),
        pathExists env st (imgPathOf cfg post st.clock ext0) = true →
        downloadStage cfg env st post u ext0 tags =
          .ok { tick st with downloaded := st.downloaded + 1 }) ∧
    (∀ (cfg : Config) (env : Env),
        (∀ (page : Int) (data : JVal) (posts : List JVal),
            env.pages page = .ok data → extract_posts data = some posts →
            ∀ pJ ∈ posts, ∀ (post : Dict) (u : String), pJ = .dict post →
              get_image_url_from_post post = some (.str u) →
              ∀ clock,
                env.exists0 (imgPathOf cfg post clock (extOfUrl u)) = true) →
        ∀ (fuel clock : Nat),
          (runState (run cfg env fuel clock)).written = [] ∧
          (runState (run cfg env fuel clock)).fetched = []) := by
  constructor
  · intro cfg env st post u ext0 tags hex
    simp [downloadStage, hex]
  · intro cfg env hsat fuel clock
    simpa [run, initSt] using runLoop_preserves cfg env hsat fuel 0 (initSt clock)

/-- Witness for C4: the one existing-image post of `envSatisfied` is
counted without any fetch or write, and the whole run over that
environment writes nothing and fetches nothing. -/
theorem c4_witness :
    downloadStage cfgPlain envSatisfied (initSt 0) (mkPostD 1)
        "https://x/a.jpg" ".jpg" (.str "tag") =
      .ok { tick (initSt 0) with downloaded := 1 } ∧
    (runState (run cfgPlain envSatisfied 5 0)).written = [] ∧
    (runState (run cfgPlain envSatisfied 5 0)).fetched = [] :=
  ⟨c4_skip_if_exists_idempotent.1 cfgPlain envSatisfied (initSt 0)
     (mkPostD 1) "https://x/a.jpg" ".jpg" (.str "tag") rfl,
   (c4_skip_if_exists_idempotent.2 cfgPlain envSatisfied
     (by
       intro page data posts hpg hex pJ hmem post u hpd hurl clock
       by_cases hp1 : page = 1
       · subst hp1
         simp only [envSatisfied, beq_self_eq_true, if_true,
           PageResult.ok.injEq] at hpg
         subst hpg
         simp only [extract_posts, Option.some.injEq] at hex
         subst hex
         rcases List.mem_singleton.mp hmem with rfl
         rw [show mkPost 1 = .dict (mkPostD 1) from rfl] at hpd
         cases hpd
         have hu : u = "https://x/a.jpg" := by
           have : get_image_url_from_post (mkPostD 1) =
               some (.str "https://x/a.jpg") := rfl
           rw [this] at hurl
           exact (JVal.str.inj (Option.some.inj hurl)).symm
         subst hu
         rfl
       · simp only [envSatisfied] at hpg
         rw [if_neg (by simpa using hp1)] at hpg
         cases hpg
         simp only [extract_posts] at hex
         cases hex
         cases hmem) 5 0).1,
   (c4_skip_if_exists_idempotent.2 cfgPlain envSatisfied
     (by
       intro page data posts hpg hex pJ hmem post u hpd hurl clock
       by_cases hp1 : page = 1
       · subst hp1
         simp only [envSatisfied, beq_self_eq_true, if_true,
           PageResult.ok.injEq] at hpg
         subst hpg
         simp only [extract_posts, Option.some.injEq] at hex
         subst hex
         rcases List.mem_singleton.mp hmem with rfl
         rw [show mkPost 1 = .dict (mkPostD 1) from rfl] at hpd
         cases hpd
         have hu : u = "https://x/a.jpg" := by
           have : get_image_url_from_post (mkPostD 1) =
               some (.str "https://x/a.jpg") := rfl
           rw [this] at hurl
           exact (JVal.str.inj (Option.some.inj hurl)).symm
         subst hu
         rfl
       · simp only [envSatisfied] at hpg
         rw [if_neg (by simpa using hp1)] at hpg
         cases hpg
         simp only [extract_posts] at hex
         cases hex
         cases hmem) 5 0).2⟩

/-- Claim C3: the downloaded count never exceeds the configured maximum —
the budget is re-checked before each page and before each post — and when
a page supplies at least the remaining budget of countable posts, the loop
stops at exactly `max_images` counted image+tag pairs even though the page
holds more. -/
theorem c3_budget_cap :
    (∀ (cfg : Config) (env : Env) (fuel : Nat) (page : Int) (st : St),
        st.downloaded ≤ cfg.max_images →
        (runState (runLoop cfg env fuel page st)).downloaded ≤ cfg.max_images) ∧
    (∀ (cfg : Config) (env : Env) (posts : List JVal) (st : St),
        st.downloaded ≤ cfg.max_images →
        cfg.max_images ≤ st.downloaded + posts.length →
        (∀ p ∈ posts, ∀ s : St, ∃ s', processPost cfg env s p = .ok s' ∧
            s'.downloaded = s.downloaded + 1) →
        ∃ st', processPosts cfg env posts st = .ok st' ∧
               st'.downloaded = cfg.max_images) :=
  ⟨fun cfg env fuel page st h => runLoop_downloaded_le cfg env fuel page st h,
   fun cfg env posts st h1 h2 hall =>
     processPosts_exact cfg env posts st h1 h2 hall⟩

/-- Witness for C3: a budget of 2 against a page of three posts whose
image files all exist — the run never exceeds 2, and the post loop stops
at exactly 2. -/
theorem c3_witness :
    (runState (runLoop cfgTwo envAllExist 5 0 (initSt 0))).downloaded ≤
      cfgTwo.max_images ∧
    (∃ st', processPosts cfgTwo envAllExist [mkPost 1, mkPost 2, mkPost 3]
        (initSt 0) = .ok st' ∧ st'.downloaded = cfgTwo.max_images) :=
  ⟨c3_budget_cap.1 cfgTwo envAllExist 5 0 (initSt 0) (by decide),
   c3_budget_cap.2 cfgTwo envAllExist [mkPost 1, mkPost 2, mkPost 3]
     (initSt 0) (by decide) (by decide)
     (by
       intro p hp s
       rcases List.mem_cons.mp hp with rfl | hp'
       · exact ⟨_, rfl, rfl⟩
       rcases List.mem_cons.mp hp' with rfl | hp''
       · exact ⟨_, rfl, rfl⟩
       rcases List.mem_cons.mp hp'' with rfl | hp'''
       · exact ⟨_, rfl, rfl⟩
       · cases hp''')⟩

end Booru
